import Mathlib

/-!
Verification of the cocaine worker engine (`src/worker.cpp` of
cocaine-worker-nodejs) against its specification.

The worker is a single-threaded session-multiplexing engine.  We embed the
protocol state machine shallowly:

* the upstream adapter (`upstream_t` in the source) becomes a small record
  with an open/closed state and pure operations returning either emitted
  protocol messages or the "stream has been closed" fault (C++ throws an
  exception; here the operations return `Except String`);
* the session table (`m_streams`, a `std::map<unique_id_t, io_pair_t>`)
  becomes an association list with `emplace`-style insertion (which does
  not replace an existing key) and key erasure;
* the sandbox capability (`m_sandbox->invoke`) and the downstream handles
  are external collaborators; their behaviour is supplied by an oracle
  record `Env`, whose fields say, for each call the dispatcher can make,
  whether it succeeds or faults with a message;
* the dispatcher (the `switch` inside `worker_t::process`) becomes
  `dispatch`, one inbound message at a time, producing the next worker
  state and a trace of observable events (protocol messages sent upstream,
  downstream calls, log lines); an `Except.error` result models an
  exception escaping the dispatch step (which the source never catches
  there);
* the bounded drain loop of `worker_t::process` becomes `process_loop`,
  driven by a queue of already-decoded inbound messages and a countdown
  counter, returning the remaining queue and whether the channel readiness
  notification was re-armed (`m_loop.feed_fd_event` at the end of
  `process`).

Wall-clock time appears only through the disown watchdog; we model the
watchdog by its absolute deadline `disownDeadline` and pass the current
time `now` to `dispatch` (only the heartbeat case reads it).
-/

/-- Session identifiers (`unique_id_t` in the source): opaque unique tokens,
modelled as naturals. -/
abbrev SessionId := Nat

/-- Handles to sandbox-provided downstream streams.  The handle itself is
opaque to the worker; we only need an identity to direct `push`/`close`
calls at, so a natural number suffices. -/
abbrev DownId := Nat

/-- The open/closed state of an upstream adapter (`upstream_t::state_t`,
whose C++ enumerators are named `open` and `closed`; `open` is a Lean
keyword, hence `opened` here). -/
inductive StreamState where
  | opened
  | closed
deriving Repr, DecidableEq

/-- An upstream adapter (`upstream_t`): it remembers the session id it was
created for (`m_id`) and its open/closed state (`m_state`).  The
`m_worker` back pointer is represented by having the operations return the
messages they would send through the worker's channel. -/
structure Upstream where
  id : SessionId
  state : StreamState
deriving Repr, DecidableEq

/-- Reasons carried by the final suicide message (`rpc::suicide::reasons`).
Modelled from the spec: the enumeration {normal, abnormal} lives in the
cocaine-core headers, which are not part of this repository. -/
inductive SuicideReason where
  | normal
  | abnormal
deriving Repr, DecidableEq

/-- Modelled from the spec: the numeric "invocation error" code
(`invocation_error` from cocaine-core's error-code enumeration; the header
is not in this repository).  The claims only ever compare against this one
constant, so its concrete value is immaterial. -/
def invocation_error : Nat := 500

/-- Outbound protocol messages the worker can append to its channel. -/
inductive OutMsg where
  | chunk (sid : SessionId) (data : String)
  | error (sid : SessionId) (code : Nat) (msg : String)
  | choke (sid : SessionId)
  | suicide (reason : SuicideReason) (msg : String)
  | heartbeat
deriving Repr, DecidableEq

/-- Observable events of one dispatch step: a protocol message sent
upstream, a call into a sandbox downstream handle, or a log line. -/
inductive Ev where
  | out (m : OutMsg)
  | downPush (d : DownId) (data : String)
  | downClose (d : DownId)
  | log (s : String)
deriving Repr, DecidableEq

/-- `upstream_t::push`: while open, send a chunk message carrying the bytes
and stay open; while closed, throw "the stream has been closed". -/
def upstream_push (u : Upstream) (data : String) :
    Except String (Upstream × List OutMsg) :=
  match u.state with
  | .opened => .ok (u, [OutMsg.chunk u.id data])
  | .closed => .error "the stream has been closed"

/-- `upstream_t::error`: while open, transition to closed and send an error
message followed by a choke message; while closed, throw "the stream has
been closed". -/
def upstream_error (u : Upstream) (code : Nat) (msg : String) :
    Except String (Upstream × List OutMsg) :=
  match u.state with
  | .opened =>
      .ok ({ u with state := .closed },
           [OutMsg.error u.id code msg, OutMsg.choke u.id])
  | .closed => .error "the stream has been closed"

/-- `upstream_t::close`: while open, transition to closed and send a choke
message; while closed, throw "the stream has been closed". -/
def upstream_close (u : Upstream) :
    Except String (Upstream × List OutMsg) :=
  match u.state with
  | .opened => .ok ({ u with state := .closed }, [OutMsg.choke u.id])
  | .closed => .error "the stream has been closed"

/-- `upstream_t::~upstream_t`: destruction while the adapter is not closed
performs `close()` (which, from the open state, cannot fault and emits one
choke message); destruction of a closed adapter emits nothing. -/
def upstream_destruct (u : Upstream) : List OutMsg :=
  match u.state with
  | .opened => [OutMsg.choke u.id]
  | .closed => []

/-- One entry of the session table (`io_pair_t`): the upstream adapter and
the sandbox-provided downstream handle. -/
structure IoPair where
  upstream : Upstream
  downstream : DownId
deriving Repr, DecidableEq

/-- The session table (`stream_map_t`, a `std::map` keyed by session id),
modelled as an association list with unique keys. -/
abbrev StreamMap := List (SessionId × IoPair)

/-- `m_streams.find(sid)`: look up the entry for a session id. -/
def findEntry (sid : SessionId) : StreamMap → Option IoPair
  | [] => none
  | (k, v) :: rest => if k = sid then some v else findEntry sid rest

/-- `m_streams.emplace(sid, io)`: insert only when the key is absent
(`std::map::emplace` never replaces an existing mapping); the boolean
reports whether insertion took place. -/
def emplace (m : StreamMap) (sid : SessionId) (io : IoPair) :
    StreamMap × Bool :=
  match findEntry sid m with
  | some _ => (m, false)
  | none => ((sid, io) :: m, true)

/-- `m_streams.erase(it)`: remove the entry for a session id (keys are
unique, so filtering the key out erases exactly that entry). -/
def eraseKey (sid : SessionId) (m : StreamMap) : StreamMap :=
  m.filter (fun p => p.1 ≠ sid)

/-- The worker state the dispatcher reads and writes: the session table,
the disown watchdog's absolute deadline, and whether the event loop is
still running (`m_loop.unloop` clears it). -/
structure Worker where
  streams : StreamMap
  disownDeadline : Nat
  loopRunning : Bool
deriving Repr, DecidableEq

/-- The external collaborators, as oracles: the result of a sandbox
invocation for a given session and event name (`m_sandbox->invoke`), the
outcome of pushing data into a downstream (`downstream->push`), the
outcome of closing a downstream (`downstream->close`), and the profile's
heartbeat timeout (`m_profile->heartbeat_timeout`).  A `some msg` outcome
means the call throws an exception carrying `msg`. -/
structure Env where
  invokeResult : SessionId → String → Except String DownId
  pushResult : DownId → String → Option String
  closeResult : DownId → Option String
  heartbeatTimeout : Nat

/-- State of a worker right after construction: empty session table, the
disown watchdog started with the profile's timeout (construction time is
time 0), event loop running. -/
def worker_init (timeout : Nat) : Worker :=
  { streams := [], disownDeadline := timeout, loopRunning := true }

/-- Inbound messages, after decoding the type tag and the typed payload
(the channel owns the wire framing). -/
inductive InMsg where
  | heartbeat
  | invoke (sid : SessionId) (event : String)
  | chunk (sid : SessionId) (data : String)
  | choke (sid : SessionId)
  | terminate
  | unknown (tag : Nat)
deriving Repr, DecidableEq

/-- `worker_t::terminate`: send a suicide message with the reason and the
cause, then stop the event loop. -/
def terminate_fn (w : Worker) (reason : SuicideReason) (msg : String) :
    Worker × List Ev :=
  ({ w with loopRunning := false }, [Ev.out (OutMsg.suicide reason msg)])

/-- `worker_t::on_disown`: log that the worker has lost its controlling
engine and stop the event loop; no protocol message is sent on this
path. -/
def on_disown (w : Worker) : Worker × List Ev :=
  ({ w with loopRunning := false },
   [Ev.log "worker has lost the controlling engine"])

/-- The message dispatcher: the `switch` in `worker_t::process`, applied to
one decoded inbound message.  `now` is the current time (read only by the
heartbeat case, which restarts the disown watchdog).  The result is the
new worker state and the trace of events of this dispatch step; an
`Except.error` result models an exception escaping the dispatch step.
The invoke case also accounts for the C++ destructor of the locally
created adapter: when the freshly built stream pair is not stored in the
table, the worker's references to it die at the end of the case block and
`upstream_destruct` gives what the destructor emits. -/
def dispatch (env : Env) (now : Nat) (w : Worker) :
    InMsg → Except String (Worker × List Ev)
  | .heartbeat =>
      .ok ({ w with disownDeadline := now + env.heartbeatTimeout }, [])
  | .invoke sid event =>
      let upstream : Upstream := { id := sid, state := .opened }
      match env.invokeResult sid event with
      | .ok downstream =>
          match emplace w.streams sid ⟨upstream, downstream⟩ with
          | (m, true) => .ok ({ w with streams := m }, [])
          | (m, false) =>
              .ok ({ w with streams := m },
                   (upstream_destruct upstream).map Ev.out)
      | .error e =>
          match upstream_error upstream invocation_error e with
          | .ok (u, outs) =>
              .ok (w, (outs ++ upstream_destruct u).map Ev.out)
          | .error e2 => .error e2
  | .chunk sid data =>
      match findEntry sid w.streams with
      | none => .ok (w, [])
      | some io =>
          match env.pushResult io.downstream data with
          | none => .ok (w, [Ev.downPush io.downstream data])
          | some e =>
              match upstream_error io.upstream invocation_error e with
              | .ok (_, outs) =>
                  .ok ({ w with streams := eraseKey sid w.streams },
                       Ev.downPush io.downstream data :: outs.map Ev.out)
              | .error e2 => .error e2
  | .choke sid =>
      match findEntry sid w.streams with
      | none => .ok (w, [])
      | some io =>
          match env.closeResult io.downstream with
          | none =>
              .ok ({ w with streams := eraseKey sid w.streams },
                   [Ev.downClose io.downstream])
          | some e =>
              match upstream_error io.upstream invocation_error e with
              | .ok (_, outs) =>
                  .ok ({ w with streams := eraseKey sid w.streams },
                       Ev.downClose io.downstream :: outs.map Ev.out)
              | .error e2 => .error e2
  | .terminate => .ok (terminate_fn w .normal "per request")
  | .unknown _ => .ok (w, [Ev.log "dropping unknown message"])

/-- Modelled from the spec: `defaults::io_bulk_size`, the positive
fairness bound of the drain loop, is a protocol constant from the
cocaine-core headers, which are not in this repository. -/
def io_bulk_size : Nat := 100

/-- The drain loop of `worker_t::process`: starting from a countdown
counter, repeatedly perform a non-blocking receive (here: take the head of
the queue of decoded inbound messages) and dispatch it.  When the receive
yields nothing the loop returns at once without re-arming readiness; when
the counter reaches zero after a dispatch, the loop exits and re-arms the
channel's readiness notification (`m_loop.feed_fd_event`).  The result is
(new worker state, remaining queue, events of the pass, readiness
re-armed?). -/
def process_loop (env : Env) (now : Nat) :
    Nat → Worker → List InMsg →
    Except String (Worker × List InMsg × List Ev × Bool)
  | 0, w, queue => .ok (w, queue, [], true)
  | _ + 1, w, [] => .ok (w, [], [], false)
  | n + 1, w, msg :: rest =>
      match dispatch env now w msg with
      | .error e => .error e
      | .ok (w1, evs) =>
          match process_loop env now n w1 rest with
          | .error e => .error e
          | .ok (w2, rem, evs2, armed) => .ok (w2, rem, evs ++ evs2, armed)

/-- `worker_t::process` itself: one drain pass with the bulk-size bound. -/
def process (env : Env) (now : Nat) (w : Worker) (queue : List InMsg) :
    Except String (Worker × List InMsg × List Ev × Bool) :=
  process_loop env now io_bulk_size w queue

/-- Sequential dispatch of a list of messages, collecting events (the
reference meaning of "each queued message is dispatched exactly once, in
order").  On a dispatch fault it stops (never reached from well-formed
states). -/
def drainSpec (env : Env) (now : Nat) :
    Worker → List InMsg → Worker × List Ev
  | w, [] => (w, [])
  | w, msg :: rest =>
      match dispatch env now w msg with
      | .error _ => (w, [])
      | .ok (w1, evs) =>
          match drainSpec env now w1 rest with
          | (w2, evs2) => (w2, evs ++ evs2)

/-- One step of a whole worker run: dispatch a timestamped inbound message,
keeping the state unchanged if the dispatch faulted (never happens from
reachable states, see the safety theorem). -/
def stepRun (env : Env) (w : Worker) (s : Nat × InMsg) : Worker :=
  match dispatch env s.1 w s.2 with
  | .ok p => p.1
  | .error _ => w

/-- The worker state reached from construction by dispatching a sequence
of timestamped inbound messages. -/
def run (env : Env) (steps : List (Nat × InMsg)) : Worker :=
  steps.foldl (stepRun env) (worker_init env.heartbeatTimeout)

/-- Well-formedness of a worker state: every upstream adapter stored in
the session table is still open and is tagged with its own table key. -/
def WF (w : Worker) : Prop :=
  ∀ p ∈ w.streams, p.2.upstream.state = .opened ∧ p.2.upstream.id = p.1

/-! ## Basic lemmas about the session table -/

/-- A successful lookup yields an actual table entry. -/
theorem findEntry_mem {sid : SessionId} {m : StreamMap} {io : IoPair}
    (h : findEntry sid m = some io) : (sid, io) ∈ m := by
  induction m with
  | nil => simp [findEntry] at h
  | cons p rest ih =>
      obtain ⟨k, v⟩ := p
      by_cases hk : k = sid
      · subst hk
        simp [findEntry] at h
        subst h
        exact List.mem_cons_self _ _
      · simp only [findEntry, if_neg hk] at h
        exact List.mem_cons_of_mem _ (ih h)

/-- Looking up after erasing: gone at the erased key, untouched elsewhere. -/
theorem findEntry_eraseKey (k sid : SessionId) (m : StreamMap) :
    findEntry k (eraseKey sid m) = if k = sid then none else findEntry k m := by
  induction m with
  | nil => simp [findEntry, eraseKey]
  | cons p rest ih =>
      obtain ⟨k0, v⟩ := p
      by_cases h0 : k0 = sid <;> by_cases hk : k0 = k <;>
        simp_all [eraseKey, findEntry, List.filter_cons]

/-- Erasing only removes entries. -/
theorem mem_of_mem_eraseKey {p : SessionId × IoPair} {sid : SessionId}
    {m : StreamMap} (h : p ∈ eraseKey sid m) : p ∈ m :=
  (List.mem_filter.mp h).1

/-! ## Branch equations of the dispatcher -/

/-- Heartbeat case of the dispatcher: restart the disown watchdog, touch
nothing else, emit nothing. -/
theorem dispatch_heartbeat_eq (env : Env) (now : Nat) (w : Worker) :
    dispatch env now w .heartbeat =
      .ok ({ w with disownDeadline := now + env.heartbeatTimeout }, []) := rfl

/-- Invoke case, sandbox invocation succeeds, session id not yet in the
table: the fresh stream pair is inserted and nothing is emitted. -/
theorem dispatch_invoke_new_eq (env : Env) (now : Nat) (w : Worker)
    (sid : SessionId) (event : String) (d : DownId)
    (h : env.invokeResult sid event = .ok d)
    (hf : findEntry sid w.streams = none) :
    dispatch env now w (.invoke sid event) =
      .ok ({ w with streams := (sid, ⟨⟨sid, .opened⟩, d⟩) :: w.streams },
           []) := by
  simp [dispatch, h, emplace, hf]

/-- Invoke case, sandbox invocation succeeds, but the session id is
already in the table: `emplace` inserts nothing, the existing entry stays,
and the discarded still-open adapter emits one choke on destruction. -/
theorem dispatch_invoke_dup_eq (env : Env) (now : Nat) (w : Worker)
    (sid : SessionId) (event : String) (d : DownId) (io : IoPair)
    (h : env.invokeResult sid event = .ok d)
    (hf : findEntry sid w.streams = some io) :
    dispatch env now w (.invoke sid event) =
      .ok (w, [Ev.out (OutMsg.choke sid)]) := by
  simp [dispatch, h, emplace, hf, upstream_destruct]

/-- Invoke case, sandbox invocation faults: `error()` on the just-created
adapter emits an error message then a choke message; the worker state is
untouched (in particular nothing is inserted into the table). -/
theorem dispatch_invoke_fault_eq (env : Env) (now : Nat) (w : Worker)
    (sid : SessionId) (event : String) (e : String)
    (h : env.invokeResult sid event = .error e) :
    dispatch env now w (.invoke sid event) =
      .ok (w, [Ev.out (OutMsg.error sid invocation_error e),
               Ev.out (OutMsg.choke sid)]) := by
  simp [dispatch, h, upstream_error, upstream_destruct]

/-- Chunk case, session id absent: silent drop. -/
theorem dispatch_chunk_absent_eq (env : Env) (now : Nat) (w : Worker)
    (sid : SessionId) (data : String)
    (hf : findEntry sid w.streams = none) :
    dispatch env now w (.chunk sid data) = .ok (w, []) := by
  simp [dispatch, hf]

/-- Chunk case, session present and the downstream push succeeds: the
bytes are forwarded and the state (the table entry included) is left
unchanged. -/
theorem dispatch_chunk_push_eq (env : Env) (now : Nat) (w : Worker)
    (sid : SessionId) (data : String) (io : IoPair)
    (hf : findEntry sid w.streams = some io)
    (hp : env.pushResult io.downstream data = none) :
    dispatch env now w (.chunk sid data) =
      .ok (w, [Ev.downPush io.downstream data]) := by
  simp [dispatch, hf, hp]

/-- Chunk case, session present and the downstream push faults: `error()`
on the session's upstream, then the session is erased from the table. -/
theorem dispatch_chunk_fault_eq (env : Env) (now : Nat) (w : Worker)
    (sid : SessionId) (data : String) (io : IoPair) (e : String)
    (hf : findEntry sid w.streams = some io)
    (hop : io.upstream.state = .opened)
    (hp : env.pushResult io.downstream data = some e) :
    dispatch env now w (.chunk sid data) =
      .ok ({ w with streams := eraseKey sid w.streams },
           [Ev.downPush io.downstream data,
            Ev.out (OutMsg.error io.upstream.id invocation_error e),
            Ev.out (OutMsg.choke io.upstream.id)]) := by
  simp [dispatch, hf, hp, upstream_error, hop]

/-- Choke case, session id absent: silent drop. -/
theorem dispatch_choke_absent_eq (env : Env) (now : Nat) (w : Worker)
    (sid : SessionId)
    (hf : findEntry sid w.streams = none) :
    dispatch env now w (.choke sid) = .ok (w, []) := by
  simp [dispatch, hf]

/-- Choke case, session present and the downstream close succeeds: the
session is erased; the upstream emits nothing on this path. -/
theorem dispatch_choke_close_eq (env : Env) (now : Nat) (w : Worker)
    (sid : SessionId) (io : IoPair)
    (hf : findEntry sid w.streams = some io)
    (hc : env.closeResult io.downstream = none) :
    dispatch env now w (.choke sid) =
      .ok ({ w with streams := eraseKey sid w.streams },
           [Ev.downClose io.downstream]) := by
  simp [dispatch, hf, hc]

/-- Choke case, session present and the downstream close faults:
`error()` on the session's upstream, and the session is erased all the
same. -/
theorem dispatch_choke_fault_eq (env : Env) (now : Nat) (w : Worker)
    (sid : SessionId) (io : IoPair) (e : String)
    (hf : findEntry sid w.streams = some io)
    (hop : io.upstream.state = .opened)
    (hc : env.closeResult io.downstream = some e) :
    dispatch env now w (.choke sid) =
      .ok ({ w with streams := eraseKey sid w.streams },
           [Ev.downClose io.downstream,
            Ev.out (OutMsg.error io.upstream.id invocation_error e),
            Ev.out (OutMsg.choke io.upstream.id)]) := by
  simp [dispatch, hf, hc, upstream_error, hop]

/-- Terminate case: suicide(normal, "per request") and stop the loop. -/
theorem dispatch_terminate_eq (env : Env) (now : Nat) (w : Worker) :
    dispatch env now w .terminate =
      .ok ({ w with loopRunning := false },
           [Ev.out (OutMsg.suicide .normal "per request")]) := rfl

/-- Unknown-type case: log a warning, drop the message, change nothing. -/
theorem dispatch_unknown_eq (env : Env) (now : Nat) (w : Worker)
    (tag : Nat) :
    dispatch env now w (.unknown tag) =
      .ok (w, [Ev.log "dropping unknown message"]) := rfl

/-! ## Safety of the dispatch step -/

/-- From a well-formed state, every dispatch step succeeds: faults of the
sandbox capability or of a downstream handle are caught inside the
dispatcher, and the `error()` calls made in the catch handlers find their
upstream adapters open, so they cannot themselves fault. -/
theorem dispatch_isOk (env : Env) (now : Nat) (w : Worker) (msg : InMsg)
    (hw : WF w) : ∃ r, dispatch env now w msg = .ok r := by
  cases msg with
  | heartbeat => exact ⟨_, dispatch_heartbeat_eq env now w⟩
  | terminate => exact ⟨_, dispatch_terminate_eq env now w⟩
  | unknown tag => exact ⟨_, dispatch_unknown_eq env now w tag⟩
  | invoke sid event =>
      cases h : env.invokeResult sid event with
      | ok d =>
          cases hf : findEntry sid w.streams with
          | none => exact ⟨_, dispatch_invoke_new_eq env now w sid event d h hf⟩
          | some io => exact ⟨_, dispatch_invoke_dup_eq env now w sid event d io h hf⟩
      | error e => exact ⟨_, dispatch_invoke_fault_eq env now w sid event e h⟩
  | chunk sid data =>
      cases hf : findEntry sid w.streams with
      | none => exact ⟨_, dispatch_chunk_absent_eq env now w sid data hf⟩
      | some io =>
          obtain ⟨hop, -⟩ := hw _ (findEntry_mem hf)
          cases hp : env.pushResult io.downstream data with
          | none => exact ⟨_, dispatch_chunk_push_eq env now w sid data io hf hp⟩
          | some e => exact ⟨_, dispatch_chunk_fault_eq env now w sid data io e hf hop hp⟩
  | choke sid =>
      cases hf : findEntry sid w.streams with
      | none => exact ⟨_, dispatch_choke_absent_eq env now w sid hf⟩
      | some io =>
          obtain ⟨hop, -⟩ := hw _ (findEntry_mem hf)
          cases hc : env.closeResult io.downstream with
          | none => exact ⟨_, dispatch_choke_close_eq env now w sid io hf hc⟩
          | some e => exact ⟨_, dispatch_choke_fault_eq env now w sid io e hf hop hc⟩

/-- Dispatch preserves well-formedness of the session table. -/
theorem dispatch_WF (env : Env) (now : Nat) (w : Worker) (msg : InMsg)
    (hw : WF w) {w2 : Worker} {evs : List Ev}
    (hd : dispatch env now w msg = .ok (w2, evs)) : WF w2 := by
  have herase : ∀ sid, WF { w with streams := eraseKey sid w.streams } := by
    intro sid p hp
    exact hw p (mem_of_mem_eraseKey hp)
  cases msg with
  | heartbeat =>
      rw [dispatch_heartbeat_eq] at hd
      cases hd
      exact hw
  | terminate =>
      rw [dispatch_terminate_eq] at hd
      cases hd
      exact hw
  | unknown tag =>
      rw [dispatch_unknown_eq] at hd
      cases hd
      exact hw
  | invoke sid event =>
      cases h : env.invokeResult sid event with
      | ok d =>
          cases hf : findEntry sid w.streams with
          | none =>
              rw [dispatch_invoke_new_eq env now w sid event d h hf] at hd
              cases hd
              intro p hp
              rcases List.mem_cons.mp hp with h1 | h2
              · subst h1; exact ⟨rfl, rfl⟩
              · exact hw p h2
          | some io =>
              rw [dispatch_invoke_dup_eq env now w sid event d io h hf] at hd
              cases hd
              exact hw
      | error e =>
          rw [dispatch_invoke_fault_eq env now w sid event e h] at hd
          cases hd
          exact hw
  | chunk sid data =>
      cases hf : findEntry sid w.streams with
      | none =>
          rw [dispatch_chunk_absent_eq env now w sid data hf] at hd
          cases hd
          exact hw
      | some io =>
          obtain ⟨hop, -⟩ := hw _ (findEntry_mem hf)
          cases hp : env.pushResult io.downstream data with
          | none =>
              rw [dispatch_chunk_push_eq env now w sid data io hf hp] at hd
              cases hd
              exact hw
          | some e =>
              rw [dispatch_chunk_fault_eq env now w sid data io e hf hop hp] at hd
              cases hd
              exact herase sid
  | choke sid =>
      cases hf : findEntry sid w.streams with
      | none =>
          rw [dispatch_choke_absent_eq env now w sid hf] at hd
          cases hd
          exact hw
      | some io =>
          obtain ⟨hop, -⟩ := hw _ (findEntry_mem hf)
          cases hc : env.closeResult io.downstream with
          | none =>
              rw [dispatch_choke_close_eq env now w sid io hf hc] at hd
              cases hd
              exact herase sid
          | some e =>
              rw [dispatch_choke_fault_eq env now w sid io e hf hop hc] at hd
              cases hd
              exact herase sid

/-- The freshly constructed worker is well-formed. -/
theorem worker_init_WF (timeout : Nat) : WF (worker_init timeout) := by
  intro p hp
  simp [worker_init] at hp

/-- Every state reachable by dispatching messages from construction is
well-formed: each upstream adapter in the session table is still open. -/
theorem run_WF (env : Env) (steps : List (Nat × InMsg)) : WF (run env steps) := by
  suffices h : ∀ w : Worker, WF w → WF (steps.foldl (stepRun env) w) from
    h _ (worker_init_WF env.heartbeatTimeout)
  induction steps with
  | nil => intro w hw; exact hw
  | cons s rest ih =>
      intro w hw
      simp only [List.foldl_cons]
      obtain ⟨⟨w1, evs⟩, hd⟩ := dispatch_isOk env s.1 w s.2 hw
      have hstep : stepRun env w s = w1 := by simp [stepRun, hd]
      rw [hstep]
      exact ih w1 (dispatch_WF env s.1 w s.2 hw hd)

/-! ## The specification's view of one session's lifecycle

The spec states the table invariant in terms of the session's history: a
session id is present iff an invoke for it succeeded (the sandbox returned
a downstream handle) and no terminal event — a downstream fault during
chunk handling, or a choke for a present session — has been processed
since.  `ghost_step` is that sentence turned into a transition function on
`Option DownId` (`some d` = "a successful invocation with downstream `d`
is live", `none` = "no live invocation"); it is written from the spec's
words, for comparison with the code's table. -/

/-- One spec-side step of a single session's lifecycle. -/
def ghost_step (env : Env) (sid : SessionId) (g : Option DownId) :
    InMsg → Option DownId
  | .invoke s event =>
      if s = sid then
        match env.invokeResult s event, g with
        | .ok d, none => some d
        | .ok _, some d0 => some d0
        | .error _, g0 => g0
      else g
  | .chunk s data =>
      if s = sid then
        match g with
        | some d => if (env.pushResult d data).isSome then none else some d
        | none => none
      else g
  | .choke s => if s = sid then none else g
  | _ => g

/-- The spec-side lifecycle of session `sid` over a whole inbound message
history (no invocation live at construction time). -/
def ghostRun (env : Env) (sid : SessionId)
    (steps : List (Nat × InMsg)) : Option DownId :=
  steps.foldl (fun g s => ghost_step env sid g s.2) none

/-- One dispatch step moves the code's table entry for a session exactly
as the spec-side lifecycle step does (tracking the downstream handle of
the live invocation). -/
theorem dispatch_ghost_step (env : Env) (now : Nat) (w : Worker)
    (sid : SessionId) (msg : InMsg) {w2 : Worker} {evs : List Ev}
    (hd : dispatch env now w msg = .ok (w2, evs)) :
    (findEntry sid w2.streams).map IoPair.downstream =
      ghost_step env sid
        ((findEntry sid w.streams).map IoPair.downstream) msg := by
  cases msg with
  | heartbeat =>
      rw [dispatch_heartbeat_eq] at hd
      cases hd
      rfl
  | terminate =>
      rw [dispatch_terminate_eq] at hd
      cases hd
      rfl
  | unknown tag =>
      rw [dispatch_unknown_eq] at hd
      cases hd
      rfl
  | invoke s event =>
      cases h : env.invokeResult s event with
      | ok d =>
          cases hf : findEntry s w.streams with
          | none =>
              rw [dispatch_invoke_new_eq env now w s event d h hf] at hd
              cases hd
              by_cases hs : s = sid
              · subst hs
                simp [ghost_step, findEntry, h, hf]
              · have : sid ≠ s := fun hc => hs hc.symm
                simp [ghost_step, findEntry, hs, h, Ne.symm hs]
          | some io =>
              rw [dispatch_invoke_dup_eq env now w s event d io h hf] at hd
              cases hd
              by_cases hs : s = sid
              · subst hs
                simp [ghost_step, h, hf]
              · simp [ghost_step, hs]
      | error e =>
          rw [dispatch_invoke_fault_eq env now w s event e h] at hd
          cases hd
          by_cases hs : s = sid
          · subst hs
            simp [ghost_step, h]
          · simp [ghost_step, hs]
  | chunk s data =>
      cases hf : findEntry s w.streams with
      | none =>
          rw [dispatch_chunk_absent_eq env now w s data hf] at hd
          cases hd
          by_cases hs : s = sid
          · subst hs
            simp [ghost_step, hf]
          · simp [ghost_step, hs]
      | some io =>
          cases hp : env.pushResult io.downstream data with
          | none =>
              rw [dispatch_chunk_push_eq env now w s data io hf hp] at hd
              cases hd
              by_cases hs : s = sid
              · subst hs
                simp [ghost_step, hf, hp]
              · simp [ghost_step, hs]
          | some e =>
              obtain ⟨hop, -⟩ : io.upstream.state = .opened ∧ True := by
                cases hop : io.upstream.state with
                | opened => exact ⟨rfl, trivial⟩
                | closed =>
                    exfalso
                    revert hd
                    simp [dispatch, hf, hp, upstream_error, hop]
              rw [dispatch_chunk_fault_eq env now w s data io e hf hop hp] at hd
              cases hd
              by_cases hs : s = sid
              · subst hs
                simp [ghost_step, hf, hp, findEntry_eraseKey]
              · simp [ghost_step, hs, findEntry_eraseKey, Ne.symm hs]
  | choke s =>
      cases hf : findEntry s w.streams with
      | none =>
          rw [dispatch_choke_absent_eq env now w s hf] at hd
          cases hd
          by_cases hs : s = sid
          · subst hs
            simp [ghost_step, hf]
          · simp [ghost_step, hs]
      | some io =>
          cases hc : env.closeResult io.downstream with
          | none =>
              rw [dispatch_choke_close_eq env now w s io hf hc] at hd
              cases hd
              by_cases hs : s = sid
              · subst hs
                simp [ghost_step, findEntry_eraseKey]
              · simp [ghost_step, hs, findEntry_eraseKey, Ne.symm hs]
          | some e =>
              obtain ⟨hop, -⟩ : io.upstream.state = .opened ∧ True := by
                cases hop : io.upstream.state with
                | opened => exact ⟨rfl, trivial⟩
                | closed =>
                    exfalso
                    revert hd
                    simp [dispatch, hf, hc, upstream_error, hop]
              rw [dispatch_choke_fault_eq env now w s io e hf hop hc] at hd
              cases hd
              by_cases hs : s = sid
              · subst hs
                simp [ghost_step, findEntry_eraseKey]
              · simp [ghost_step, hs, findEntry_eraseKey, Ne.symm hs]

/-- Over any inbound history, the code's table entry for a session is the
spec-side lifecycle state (downstream handles included). -/
theorem run_ghost (env : Env) (sid : SessionId)
    (steps : List (Nat × InMsg)) :
    (findEntry sid (run env steps).streams).map IoPair.downstream =
      ghostRun env sid steps := by
  suffices h : ∀ w : Worker, WF w →
      (findEntry sid (steps.foldl (stepRun env) w).streams).map IoPair.downstream =
        steps.foldl (fun g s => ghost_step env sid g s.2)
          ((findEntry sid w.streams).map IoPair.downstream) by
    have h0 := h (worker_init env.heartbeatTimeout) (worker_init_WF _)
    simpa [run, ghostRun, worker_init, findEntry] using h0
  induction steps with
  | nil => intro w hw; rfl
  | cons s rest ih =>
      intro w hw
      simp only [List.foldl_cons]
      obtain ⟨⟨w1, evs⟩, hd⟩ := dispatch_isOk env s.1 w s.2 hw
      have hstep : stepRun env w s = w1 := by simp [stepRun, hd]
      rw [hstep, ih w1 (dispatch_WF env s.1 w s.2 hw hd),
          dispatch_ghost_step env s.1 w sid s.2 hd]

/-! ## Drain-loop lemmas -/

/-- When at least `b` messages are queued, a drain pass with countdown `b`
dispatches exactly the first `b` messages in order, leaves exactly the
rest queued, and re-arms the channel's readiness notification. -/
theorem process_loop_full (env : Env) (now : Nat) :
    ∀ (b : Nat) (w : Worker) (queue : List InMsg), WF w →
      b ≤ queue.length →
      process_loop env now b w queue =
        .ok ((drainSpec env now w (queue.take b)).1, queue.drop b,
             (drainSpec env now w (queue.take b)).2, true) := by
  intro b
  induction b with
  | zero =>
      intro w queue hw hlen
      simp [process_loop, drainSpec]
  | succ n ih =>
      intro w queue hw hlen
      cases queue with
      | nil => simp at hlen
      | cons msg rest =>
          obtain ⟨⟨w1, evs⟩, hd⟩ := dispatch_isOk env now w msg hw
          have hw1 := dispatch_WF env now w msg hw hd
          have hlen1 : n ≤ rest.length := Nat.le_of_succ_le_succ hlen
          simp only [process_loop, hd, List.take_succ_cons, List.drop_succ_cons]
          rw [ih w1 rest hw1 hlen1]
          simp [drainSpec, hd]

/-- When fewer messages are queued than the countdown, a drain pass
dispatches them all, stops on the empty non-blocking receive, and does not
re-arm readiness. -/
theorem process_loop_drained (env : Env) (now : Nat) :
    ∀ (b : Nat) (w : Worker) (queue : List InMsg), WF w →
      queue.length < b →
      process_loop env now b w queue =
        .ok ((drainSpec env now w queue).1, [],
             (drainSpec env now w queue).2, false) := by
  intro b
  induction b with
  | zero =>
      intro w queue hw hlen
      exact absurd hlen (Nat.not_lt_zero _)
  | succ n ih =>
      intro w queue hw hlen
      cases queue with
      | nil => simp [process_loop, drainSpec]
      | cons msg rest =>
          obtain ⟨⟨w1, evs⟩, hd⟩ := dispatch_isOk env now w msg hw
          have hw1 := dispatch_WF env now w msg hw hd
          have hlen1 : rest.length < n := Nat.lt_of_succ_lt_succ hlen
          simp only [process_loop, hd]
          rw [ih w1 rest hw1 hlen1]
          simp [drainSpec, hd]

/-! ## Witness fixtures -/

/-- A concrete oracle: invoking the event "bad" faults with "no such
event", any other event starts an invocation with downstream handle 7;
pushing the payload "boom" into a downstream faults with "push failed";
downstream close always succeeds; the profile timeout is 10. -/
def envW : Env :=
  { invokeResult := fun _ event =>
      if event = "bad" then .error "no such event" else .ok 7
    pushResult := fun _ data =>
      if data = "boom" then some "push failed" else none
    closeResult := fun _ => none
    heartbeatTimeout := 10 }

/-- A concrete live stream pair for session 1 with downstream handle 7. -/
def ioW : IoPair := ⟨⟨1, .opened⟩, 7⟩

/-- A concrete worker state whose table holds exactly session 1. -/
def workerW : Worker :=
  { streams := [(1, ioW)], disownDeadline := 10, loopRunning := true }

/-! ## The claims -/

/-- C1: for every reachable worker state, a session id is present in the
Session Table iff an invoke for it succeeded (the sandbox returned a
downstream handle) and no terminal event — a downstream fault during
chunk handling, or a choke for a present session — has yet been
processed for it; holding at every prefix of the history, this also says
the entry appears in the same dispatch step as the successful invoke and
disappears in the same dispatch step as its terminal event. -/
theorem claim_c1_table_presence (env : Env) (steps : List (Nat × InMsg))
    (sid : SessionId) :
    (findEntry sid (run env steps).streams).isSome =
      (ghostRun env sid steps).isSome := by
  have h := run_ghost env sid steps
  calc (findEntry sid (run env steps).streams).isSome
      = ((findEntry sid (run env steps).streams).map IoPair.downstream).isSome := by
        cases findEntry sid (run env steps).streams <;> rfl
    _ = (ghostRun env sid steps).isSome := by rw [h]

/-- Witness for C1 at a concrete history: invoke session 1, then feed it
one chunk. -/
theorem claim_c1_witness :
    (findEntry 1 (run envW
        [(0, InMsg.invoke 1 "ping"), (1, InMsg.chunk 1 "x")]).streams).isSome =
      (ghostRun envW 1
        [(0, InMsg.invoke 1 "ping"), (1, InMsg.chunk 1 "x")]).isSome :=
  claim_c1_table_presence envW
    [(0, InMsg.invoke 1 "ping"), (1, InMsg.chunk 1 "x")] 1

/-- C2: the upstream adapter's one-way state machine: while open, `push`
emits a chunk message and stays open, `error` emits an error message then
a choke message and closes, `close` emits a choke message and closes; on
a closed adapter (i.e. once `error()` or `close()` has been called) every
operation raises the "stream has been closed" usage fault and emits
nothing. -/
theorem claim_c2_upstream_state_machine (sid : SessionId)
    (data emsg : String) (code : Nat) :
    upstream_push ⟨sid, .closed⟩ data = .error "the stream has been closed" ∧
    upstream_error ⟨sid, .closed⟩ code emsg = .error "the stream has been closed" ∧
    upstream_close ⟨sid, .closed⟩ = .error "the stream has been closed" ∧
    upstream_push ⟨sid, .opened⟩ data =
      .ok (⟨sid, .opened⟩, [OutMsg.chunk sid data]) ∧
    upstream_error ⟨sid, .opened⟩ code emsg =
      .ok (⟨sid, .closed⟩, [OutMsg.error sid code emsg, OutMsg.choke sid]) ∧
    upstream_close ⟨sid, .opened⟩ =
      .ok (⟨sid, .closed⟩, [OutMsg.choke sid]) :=
  ⟨rfl, rfl, rfl, rfl, rfl, rfl⟩

/-- Witness for C2 at session 1. -/
theorem claim_c2_witness :
    upstream_push ⟨1, .closed⟩ "d" = .error "the stream has been closed" ∧
    upstream_error ⟨1, .closed⟩ 500 "m" = .error "the stream has been closed" ∧
    upstream_close ⟨1, .closed⟩ = .error "the stream has been closed" ∧
    upstream_push ⟨1, .opened⟩ "d" =
      .ok (⟨1, .opened⟩, [OutMsg.chunk 1 "d"]) ∧
    upstream_error ⟨1, .opened⟩ 500 "m" =
      .ok (⟨1, .closed⟩, [OutMsg.error 1 500 "m", OutMsg.choke 1]) ∧
    upstream_close ⟨1, .opened⟩ =
      .ok (⟨1, .closed⟩, [OutMsg.choke 1]) :=
  claim_c2_upstream_state_machine 1 "d" "m" 500

/-- C3: when the sandbox invocation faults, the dispatcher calls
`error()` on the just-created upstream, emitting an error message with
the invocation-error code and the fault's message followed by a choke
message for that session, and the worker state — the Session Table in
particular — is left exactly as it was, so the session id is never
inserted. -/
theorem claim_c3_invoke_fault (env : Env) (now : Nat) (w : Worker)
    (sid : SessionId) (event e : String)
    (h : env.invokeResult sid event = .error e) :
    dispatch env now w (.invoke sid event) =
      .ok (w, [Ev.out (OutMsg.error sid invocation_error e),
               Ev.out (OutMsg.choke sid)]) :=
  dispatch_invoke_fault_eq env now w sid event e h

/-- Witness for C3: invoking "bad" on session 2 faults with "no such
event". -/
theorem claim_c3_witness :
    envW.invokeResult 2 "bad" = .error "no such event" ∧
    dispatch envW 0 workerW (.invoke 2 "bad") =
      .ok (workerW, [Ev.out (OutMsg.error 2 invocation_error "no such event"),
                     Ev.out (OutMsg.choke 2)]) :=
  ⟨rfl, claim_c3_invoke_fault envW 0 workerW 2 "bad" "no such event" rfl⟩

/-- C4: at every reachable worker state, every upstream adapter stored in
the Session Table is still open, and dispatching any message succeeds:
faults of the sandbox capability or of a downstream handle are caught at
the dispatch boundary and converted into an `error()` call on the owning
upstream, which — being open — cannot itself raise the "stream already
closed" fault, so no application fault propagates out of the dispatch
step. -/
theorem claim_c4_no_fault_escape (env : Env) (steps : List (Nat × InMsg))
    (now : Nat) (msg : InMsg) :
    (∀ p ∈ (run env steps).streams, p.2.upstream.state = .opened) ∧
    ∃ r, dispatch env now (run env steps) msg = .ok r :=
  ⟨fun p hp => (run_WF env steps p hp).1,
   dispatch_isOk env now (run env steps) msg (run_WF env steps)⟩

/-- Witness for C4: after a successful invoke of session 1, feeding a
faulting chunk still dispatches without an escaping fault. -/
theorem claim_c4_witness :
    (∀ p ∈ (run envW [(0, InMsg.invoke 1 "ping")]).streams,
        p.2.upstream.state = .opened) ∧
    ∃ r, dispatch envW 1 (run envW [(0, InMsg.invoke 1 "ping")])
        (.chunk 1 "boom") = .ok r :=
  claim_c4_no_fault_escape envW [(0, InMsg.invoke 1 "ping")] 1
    (.chunk 1 "boom")

/-- C5: drain-loop fairness from any well-formed state: when at least the
countdown bound of messages is queued, one pass dispatches exactly the
first `bound` messages in order (none lost, none twice — the state and
events are those of dispatching precisely `queue.take b`, and exactly
`queue.drop b` remains queued) and re-arms the channel's readiness
notification; when fewer are queued, the pass dispatches them all and
stops as soon as the non-blocking receive yields nothing, without
re-arming. -/
theorem claim_c5_drain_fairness (env : Env) (now : Nat) (b : Nat)
    (w : Worker) (queue : List InMsg) (hw : WF w) :
    (b ≤ queue.length →
       process_loop env now b w queue =
         .ok ((drainSpec env now w (queue.take b)).1, queue.drop b,
              (drainSpec env now w (queue.take b)).2, true)) ∧
    (queue.length < b →
       process_loop env now b w queue =
         .ok ((drainSpec env now w queue).1, [],
              (drainSpec env now w queue).2, false)) :=
  ⟨process_loop_full env now b w queue hw,
   process_loop_drained env now b w queue hw⟩

/-- Witness for C5: three queued heartbeats, once with countdown 2 (two
dispatched, one left, readiness re-armed) and once with countdown 5 (all
dispatched, no re-arm). -/
theorem claim_c5_witness :
    (process_loop envW 0 2 (worker_init 10)
        [InMsg.heartbeat, InMsg.heartbeat, InMsg.heartbeat] =
      .ok ((drainSpec envW 0 (worker_init 10)
              ([InMsg.heartbeat, InMsg.heartbeat, InMsg.heartbeat].take 2)).1,
           [InMsg.heartbeat, InMsg.heartbeat, InMsg.heartbeat].drop 2,
           (drainSpec envW 0 (worker_init 10)
              ([InMsg.heartbeat, InMsg.heartbeat, InMsg.heartbeat].take 2)).2,
           true)) ∧
    (process_loop envW 0 5 (worker_init 10)
        [InMsg.heartbeat, InMsg.heartbeat, InMsg.heartbeat] =
      .ok ((drainSpec envW 0 (worker_init 10)
              [InMsg.heartbeat, InMsg.heartbeat, InMsg.heartbeat]).1,
           [],
           (drainSpec envW 0 (worker_init 10)
              [InMsg.heartbeat, InMsg.heartbeat, InMsg.heartbeat]).2,
           false)) :=
  ⟨(claim_c5_drain_fairness envW 0 2 (worker_init 10)
      [InMsg.heartbeat, InMsg.heartbeat, InMsg.heartbeat]
      (worker_init_WF 10)).1 (by decide),
   (claim_c5_drain_fairness envW 0 5 (worker_init 10)
      [InMsg.heartbeat, InMsg.heartbeat, InMsg.heartbeat]
      (worker_init_WF 10)).2 (by decide)⟩

/-- C6: for a chunk whose session is present (with its adapter open and
tagged with the session id, as every reachable table entry is), the bytes
are forwarded to that session's downstream via `push`; if the push
succeeds the whole state — the table entry included — is unchanged; if
the push faults, `error()` is called on that session's upstream with the
invocation-error code and the fault's message, and the session id is
erased from the table. -/
theorem claim_c6_chunk_forwarding (env : Env) (now : Nat) (w : Worker)
    (sid : SessionId) (data : String) (io : IoPair)
    (hf : findEntry sid w.streams = some io)
    (hop : io.upstream.state = .opened)
    (hid : io.upstream.id = sid) :
    (env.pushResult io.downstream data = none →
       dispatch env now w (.chunk sid data) =
         .ok (w, [Ev.downPush io.downstream data])) ∧
    (∀ e, env.pushResult io.downstream data = some e →
       dispatch env now w (.chunk sid data) =
         .ok ({ w with streams := eraseKey sid w.streams },
              [Ev.downPush io.downstream data,
               Ev.out (OutMsg.error sid invocation_error e),
               Ev.out (OutMsg.choke sid)])) := by
  constructor
  · intro hp
    exact dispatch_chunk_push_eq env now w sid data io hf hp
  · intro e hp
    have h := dispatch_chunk_fault_eq env now w sid data io e hf hop hp
    rwa [hid] at h

/-- Witness for C6 on session 1: the payload "hello" is forwarded and the
table survives; the payload "boom" faults the downstream, the upstream
reports the invocation error and the session is erased. -/
theorem claim_c6_witness :
    (dispatch envW 0 workerW (.chunk 1 "hello") =
       .ok (workerW, [Ev.downPush 7 "hello"])) ∧
    (dispatch envW 0 workerW (.chunk 1 "boom") =
       .ok ({ workerW with streams := eraseKey 1 workerW.streams },
            [Ev.downPush 7 "boom",
             Ev.out (OutMsg.error 1 invocation_error "push failed"),
             Ev.out (OutMsg.choke 1)])) :=
  ⟨(claim_c6_chunk_forwarding envW 0 workerW 1 "hello" ioW rfl rfl rfl).1 rfl,
   (claim_c6_chunk_forwarding envW 0 workerW 1 "boom" ioW rfl rfl rfl).2
     "push failed" rfl⟩

/-- C7: dispatching an inbound heartbeat resets the disown watchdog's
deadline to the current time plus the profile's heartbeat timeout —
whatever deadline remained — and changes nothing else, emitting
nothing. -/
theorem claim_c7_heartbeat_restart (env : Env) (now : Nat) (w : Worker) :
    dispatch env now w .heartbeat =
      .ok ({ w with disownDeadline := now + env.heartbeatTimeout }, []) :=
  dispatch_heartbeat_eq env now w

/-- Witness for C7 at a concrete state with time 3. -/
theorem claim_c7_witness :
    dispatch envW 3 workerW .heartbeat =
      .ok ({ workerW with disownDeadline := 3 + envW.heartbeatTimeout }, []) :=
  claim_c7_heartbeat_restart envW 3 workerW

/-- C8: when the disown watchdog fires, the worker logs the disownment
and unconditionally stops the event loop; the emitted trace is exactly
that one log line, so no suicide message nor any other protocol message
is sent on this path. -/
theorem claim_c8_disown_stop (w : Worker) :
    on_disown w = ({ w with loopRunning := false },
                   [Ev.log "worker has lost the controlling engine"]) ∧
    ∀ e ∈ (on_disown w).2, ∀ m : OutMsg, e ≠ Ev.out m := by
  refine ⟨rfl, ?_⟩
  intro e he m
  simp only [on_disown, List.mem_singleton] at he
  subst he
  simp

/-- Witness for C8 at a concrete state. -/
theorem claim_c8_witness :
    on_disown workerW = ({ workerW with loopRunning := false },
                         [Ev.log "worker has lost the controlling engine"]) ∧
    ∀ e ∈ (on_disown workerW).2, ∀ m : OutMsg, e ≠ Ev.out m :=
  claim_c8_disown_stop workerW

/-- C9: a chunk or choke message whose session id is absent from the
Session Table dispatches without error, emits no event at all, and
returns the worker state untouched (the message is only consumed). -/
theorem claim_c9_routing_miss (env : Env) (now : Nat) (w : Worker)
    (sid : SessionId) (data : String)
    (hf : findEntry sid w.streams = none) :
    dispatch env now w (.chunk sid data) = .ok (w, []) ∧
    dispatch env now w (.choke sid) = .ok (w, []) :=
  ⟨dispatch_chunk_absent_eq env now w sid data hf,
   dispatch_choke_absent_eq env now w sid hf⟩

/-- Witness for C9: session 9 was never in the table. -/
theorem claim_c9_witness :
    dispatch envW 0 workerW (.chunk 9 "x") = .ok (workerW, []) ∧
    dispatch envW 0 workerW (.choke 9) = .ok (workerW, []) :=
  claim_c9_routing_miss envW 0 workerW 9 "x" rfl

/-- C10: an invoke for a session id already present in the table whose
sandbox invocation succeeds leaves the worker state — the existing entry
included — unchanged: `emplace` refuses to replace the existing key, the
fresh stream pair is discarded rather than stored, and the discarded
adapter, still open when destroyed, emits exactly one choke message for
that session id. -/
theorem claim_c10_invoke_dup (env : Env) (now : Nat) (w : Worker)
    (sid : SessionId) (event : String) (d : DownId) (io : IoPair)
    (hf : findEntry sid w.streams = some io)
    (h : env.invokeResult sid event = .ok d) :
    dispatch env now w (.invoke sid event) =
      .ok (w, [Ev.out (OutMsg.choke sid)]) ∧
    emplace w.streams sid ⟨⟨sid, .opened⟩, d⟩ = (w.streams, false) ∧
    upstream_destruct ⟨sid, .opened⟩ = [OutMsg.choke sid] := by
  refine ⟨dispatch_invoke_dup_eq env now w sid event d io h hf, ?_, rfl⟩
  simp [emplace, hf]

/-- Witness for C10: re-invoking session 1, which is already live. -/
theorem claim_c10_witness :
    dispatch envW 0 workerW (.invoke 1 "ping") =
      .ok (workerW, [Ev.out (OutMsg.choke 1)]) ∧
    emplace workerW.streams 1 ⟨⟨1, .opened⟩, 7⟩ = (workerW.streams, false) ∧
    upstream_destruct ⟨1, .opened⟩ = [OutMsg.choke 1] :=
  claim_c10_invoke_dup envW 0 workerW 1 "ping" 7 ioW rfl rfl
